import Mathlib

/-!
Shallow embedding of the conversation-management core of the nextchatweb
repository, and proofs about its specified properties.

The embedding covers:
* the conversation data model and the conversation/message stores;
* the sidebar handlers `handleSelect`, `newConversation`, `handleSummaryTitle`
  (split into its synchronous steps around the stream suspension points),
  `search`, and the pinned/ordinary list partition (`src/components/AppSidebar.tsx`);
* the built-in model table (`src/constant/model.ts`) and the settings view's
  model-option computation and form-validation schema (the Setting component).

The store implementations themselves (zustand stores `useConversationStore`,
`useMessageStore`, `useModelStore`, `useSettingStore`) are not part of the
given sources; where an operation of theirs is needed it is modelled from the
spec, and marked as such in its doc comment.  JavaScript objects used as
string-keyed dictionaries are modelled as association lists preserving
insertion order, matching JS object key enumeration order for string keys.
-/

namespace NextChat

/-- A message part.  In the source a part may carry `text` among other
content; `part.text` is tested for truthiness (non-empty string) before the
search regex runs on it. -/
structure Part where
  text : String
deriving DecidableEq

/-- A chat message: an ordered sequence of parts. -/
structure ChatMessage where
  parts : List Part
deriving DecidableEq

/-- Summary state of a conversation: already-summarized message ids and the
summary content. -/
structure Summary where
  ids : List String
  content : String
deriving DecidableEq

/-- A stored conversation record, as constructed in `newConversation`
(`src/components/AppSidebar.tsx` lines 239-245). -/
structure Conversation where
  title : String
  messages : List ChatMessage
  summary : Summary
  systemInstruction : String
  chatLayout : String
deriving DecidableEq

/-- Modelled from the spec: the Conversation List store operation
`addOrUpdate(id, conversation)` is insert-or-overwrite.  A JS object keeps an
existing string key at its position on overwrite and appends new keys. -/
def addOrUpdate {α : Type} (id : String) (c : α) : List (String × α) → List (String × α)
  | [] => [(id, c)]
  | (k, v) :: rest => if k = id then (k, c) :: rest else (k, v) :: addOrUpdate id c rest

/-- Modelled from the spec: the Conversation List store operation `query(id)`
looks the id up in the mapping; an absent id is a caller contract violation
(spec section 4.1 step 4), modelled as `none`. -/
def query {α : Type} (id : String) : List (String × α) → Option α
  | [] => none
  | (k, v) :: rest => if k = id then some v else query id rest

/-- The live Message Store fields: the single "hot" conversation. -/
structure MsgStore where
  title : String
  messages : List ChatMessage
  summary : Summary
  systemInstruction : String
  chatLayout : String
deriving DecidableEq

/-- The Conversation Store state: the id-keyed list, the current id and the
pinned ids. -/
structure ConvStore where
  conversationList : List (String × Conversation)
  currentId : String
  pinned : List String
deriving DecidableEq

/-- Combined state of the two stores involved in the swap protocol. -/
structure GlobalState where
  conv : ConvStore
  msg : MsgStore
deriving DecidableEq

/-- Modelled from the spec: the Message Store operation `backup()` serializes
the live fields into a Conversation snapshot (Glossary: "Backup/Restore"). -/
def backup (m : MsgStore) : Conversation :=
  { title := m.title
    messages := m.messages
    summary := m.summary
    systemInstruction := m.systemInstruction
    chatLayout := m.chatLayout }

/-- Modelled from the spec: the Message Store operation `restore(conversation)`
loads a list entry into the live slot, replacing all previous live fields. -/
def restore (c : Conversation) : MsgStore :=
  { title := c.title
    messages := c.messages
    summary := c.summary
    systemInstruction := c.systemInstruction
    chatLayout := c.chatLayout }

/-- Modelled from the spec: the Message Store operation `setTitle(text)`
updates the live title directly (spec section 4.3: "when id equals currentId,
update the live title directly"). -/
def setTitle (text : String) (st : GlobalState) : GlobalState :=
  { st with msg := { st.msg with title := text } }

/-- The `editTitle` handler (`src/components/AppSidebar.tsx` lines 87-93):
writes the edited text into the live title via `setTitle`. -/
def editTitle (text : String) (st : GlobalState) : GlobalState :=
  setTitle text st

/-- The `handleSelect` handler (`src/components/AppSidebar.tsx` lines 76-85):
backup the live fields, write the snapshot under the old `currentId`, query
the target entry, set `currentId` to the target, and restore the found entry
into the Message Store.  The query runs against the list after the backup
write, exactly as in the source.  An absent target id yields `none`. -/
def handleSelect (id : String) (st : GlobalState) : Option GlobalState :=
  let oldConversation := backup st.msg
  let list1 := addOrUpdate st.conv.currentId oldConversation st.conv.conversationList
  match query id list1 with
  | none => none
  | some newConv =>
      some { conv := { st.conv with conversationList := list1, currentId := id },
             msg := restore newConv }

/-- The empty conversation literal constructed in `newConversation`
(`src/components/AppSidebar.tsx` lines 239-245). -/
def emptyConversation : Conversation :=
  { title := ""
    messages := []
    summary := { ids := [], content := "" }
    systemInstruction := ""
    chatLayout := "doc" }

/-- The alphabet passed to `customAlphabet`
(`src/components/AppSidebar.tsx` line 46). -/
def nanoidAlphabet : List Char :=
  "1234567890abcdefghijklmnopqrstuvwxyz".toList

/-- The id generator `nanoid = customAlphabet(alphabet, 12)`: twelve
characters drawn from the alphabet.  The entropy source is abstracted as a
function giving a raw number per position. -/
def nanoidFrom (rand : Nat → Nat) : String :=
  String.mk ((List.range 12).map fun i => nanoidAlphabet.getD (rand i % nanoidAlphabet.length) 'x')

/-- The `newConversation` handler (`src/components/AppSidebar.tsx` lines
232-249), parameterized by the freshly generated id `nid`: backup the live
fields under the old `currentId`, then set the new id as current, insert the
empty conversation under it (no uniqueness check), and restore the empty
conversation into the Message Store. -/
def newConversation (nid : String) (st : GlobalState) : GlobalState :=
  let oldConversation := backup st.msg
  let list1 := addOrUpdate st.conv.currentId oldConversation st.conv.conversationList
  { conv := { st.conv with
                conversationList := addOrUpdate nid emptyConversation list1,
                currentId := nid },
    msg := restore emptyConversation }

/-- Modelled from the spec: the initial persisted state is not part of the
given sources; spec sections 3 and 8 describe it as the list holding only the
reserved id `"default"` (empty title), current and live. -/
def initState : GlobalState :=
  { conv := { conversationList := [("default", emptyConversation)],
              currentId := "default",
              pinned := [] },
    msg := restore emptyConversation }

/-- The values the `handleSummaryTitle` handler captures synchronously at call
time (`src/components/AppSidebar.tsx` lines 95-99): the current id read from
the Conversation Store and the queried conversation for the target id.  These
captured values, not fresh reads, are what the later asynchronous steps use. -/
structure SummaryCapture where
  capturedCurrentId : String
  capturedConversation : Conversation
deriving DecidableEq

/-- First synchronous step of `handleSummaryTitle(id)` (lines 96-99): read
`currentId` and `query(id)` once, before any `await`. -/
def summaryCapture (id : String) (st : GlobalState) : Option SummaryCapture :=
  (query id st.conv.conversationList).map fun c =>
    { capturedCurrentId := st.conv.currentId, capturedConversation := c }

/-- Per-chunk step of `handleSummaryTitle` (line 120): after decoding a chunk,
write the accumulated content as the title of the conversation captured at
call time, under the captured id:
`addOrUpdate(id, { ...conversation, title: content })`. -/
def summaryChunk (id : String) (cap : SummaryCapture) (content : String)
    (st : GlobalState) : GlobalState :=
  let written : Conversation := { cap.capturedConversation with title := content }
  { st with conv :=
      { st.conv with conversationList := addOrUpdate id written st.conv.conversationList } }

/-- Completion step of `handleSummaryTitle` (line 122):
`if (id === currentId) setTitle(content)`, where `currentId` is the value
captured at call time (not re-read from the store at completion). -/
def summaryComplete (id : String) (cap : SummaryCapture) (content : String)
    (st : GlobalState) : GlobalState :=
  if id = cap.capturedCurrentId then setTitle content st else st

/-- The stream-consuming loop of `handleSummaryTitle` (lines 114-121) run to
exhaustion with no interleaved user action: accumulate each decoded chunk and
perform the per-chunk write.  Returns the final content and state. -/
def runSummaryChunks (id : String) (cap : SummaryCapture) :
    List String → String → GlobalState → String × GlobalState
  | [], content, st => (content, st)
  | chunk :: rest, content, st =>
      let content1 := content ++ chunk
      runSummaryChunks id cap rest content1 (summaryChunk id cap content1 st)

/-- Whitespace as trimmed by `String.prototype.trim`; the claims' keywords
contain none, so the exact whitespace set is immaterial. -/
def jsWhitespace (c : Char) : Bool :=
  c == ' ' || c == '\t' || c == '\n' || c == '\r'

/-- `keyword.trim()` on a character list: strip leading and trailing
whitespace. -/
def trimChars (cs : List Char) : List Char :=
  ((cs.dropWhile jsWhitespace).reverse.dropWhile jsWhitespace).reverse

/-- Case-insensitive character comparison, as the `i` regex flag performs. -/
def ciEq (a b : Char) : Bool :=
  a.toLower == b.toLower

/-- Whether `pat` occurs, case-insensitively, at the head of `s`. -/
def ciStartsWith : List Char → List Char → Bool
  | [], _ => true
  | _ :: _, [] => false
  | p :: ps, c :: cs => ciEq p c && ciStartsWith ps cs

/-- Smallest position `j`, counted from `idx` for the list `rest`, at which
`pat` occurs case-insensitively, scanning forward as `RegExp.exec` does. -/
def ciFindFrom (pat : List Char) : List Char → Nat → Option Nat
  | [], idx => if ciStartsWith pat [] then some idx else none
  | c :: cs, idx => if ciStartsWith pat (c :: cs) then some idx else ciFindFrom pat cs (idx + 1)

/-- A JavaScript `RegExp` built from a metacharacter-free keyword with flags
`gi` (`src/components/AppSidebar.tsx` line 51): the pattern together with the
mutable `lastIndex` that the `g` flag makes `test` thread from call to call. -/
structure JsRegex where
  source : List Char
  lastIndex : Nat
deriving DecidableEq

/-- `regex.test(s)` for a global regex: search from `lastIndex`; on a match
set `lastIndex` to the match end and return true; on failure (including
`lastIndex` beyond the string) reset `lastIndex` to 0 and return false. -/
def regexTest (r : JsRegex) (s : String) : Bool × JsRegex :=
  let cs := s.toList
  if r.lastIndex > cs.length then (false, { r with lastIndex := 0 })
  else
    match ciFindFrom r.source (cs.drop r.lastIndex) r.lastIndex with
    | some j => (true, { r with lastIndex := j + r.source.length })
    | none => (false, { r with lastIndex := 0 })

/-- The inner parts loop of `search` (lines 57-61): for each part whose text
is truthy (non-empty), run the regex test, accumulating whether any test in
the entry's scan has succeeded and threading the regex state. -/
def scanParts (r : JsRegex) (found : Bool) : List Part → Bool × JsRegex
  | [] => (found, r)
  | p :: ps =>
      if p.text ≠ "" then
        let (b, r1) := regexTest r p.text
        scanParts r1 (found || b) ps
      else scanParts r found ps

/-- The messages loop of `search` (lines 56-62). -/
def scanMessages (r : JsRegex) (found : Bool) : List ChatMessage → Bool × JsRegex
  | [] => (found, r)
  | m :: ms =>
      let (f1, r1) := scanParts r found m.parts
      scanMessages r1 f1 ms

/-- The entry loop of `search` (lines 52-63): test title, then (only if the
title test failed, by short-circuit of `||`) the system instruction, then scan
every message part regardless; the entry is kept iff any test succeeded.  The
single regex object is threaded through the whole loop, as in the source. -/
def searchLoop (r : JsRegex) : List (String × Conversation) → List (String × Conversation)
  | [] => []
  | (id, item) :: rest =>
      let p1 := regexTest r item.title
      let p2 := if p1.1 then p1 else regexTest p1.2 item.systemInstruction
      let p3 := scanMessages p2.2 p2.1 item.messages
      if p3.1 then (id, item) :: searchLoop p3.2 rest else searchLoop p3.2 rest

/-- The `search` function (`src/components/AppSidebar.tsx` lines 48-65):
build the results object by running `new RegExp(keyword.trim(), 'gi')` over
every entry.  Keywords are modelled as regex-literal strings (the claims'
keywords contain no metacharacters). -/
def search (keyword : String) (data : List (String × Conversation)) :
    List (String × Conversation) :=
  searchLoop { source := trimChars keyword.toList, lastIndex := 0 } data

/-- The property the spec ascribes to `search`, stated from the spec's words:
a string matches the keyword iff the keyword occurs in it case-insensitively
(a fresh case-insensitive regex test). -/
def specMatches (pat : List Char) (s : String) : Bool :=
  (List.range (s.toList.length + 1)).any fun i => ciStartsWith pat (s.toList.drop i)

/-- The `handleSearch` handler (`src/components/AppSidebar.tsx` lines
251-257): compute `search` over the current conversation list and store the
result in the component's `conversations` state; the stores are untouched. -/
def handleSearch (keyword : String) (st : GlobalState)
    (_conversations : Option (List (String × Conversation))) :
    GlobalState × Option (List (String × Conversation)) :=
  (st, some (search keyword st.conv.conversationList))

/-- The displayed title of a conversation item
(`src/components/AppSidebar.tsx` line 74): the stored title, or the localized
default label `t('chatAnything')` when the stored title is empty.  The
translation function `t` is abstracted as a parameter. -/
def conversationTitle (t : String → String) (title : String) : String :=
  if title = "" then t "chatAnything" else title

/-- The `useMemo` computation of `AppSidebar` (lines 216-230): partition the
source entries into the ordinary list and the pinned list, skipping the id
`"default"` and routing each other id by membership in `pinned`.  Returned as
`(list, pinnedList)`, in iteration order. -/
def buildLists : List (String × Conversation) → List String →
    List (String × Conversation) × List (String × Conversation)
  | [], _ => ([], [])
  | (id, c) :: rest, pinned =>
      let (l, pl) := buildLists rest pinned
      if id = "default" then (l, pl)
      else if pinned.contains id then (l, (id, c) :: pl)
      else ((id, c) :: l, pl)

/-- A record returned by the model-list service: `{ name, displayName }`. -/
structure ModelRecord where
  name : String
  displayName : String
deriving DecidableEq

/-- The built-in model table (`src/constant/model.ts` lines 1-14), as an
insertion-ordered association list. -/
def Model : List (String × String) :=
  [("gemini-1.5-pro", "Gemini 1.5 Pro"),
   ("gemini-1.5-pro-latest", "Gemini 1.5 Pro Latest"),
   ("gemini-1.5-flash", "Gemini 1.5 Flash"),
   ("gemini-1.5-flash-latest", "Gemini 1.5 Flash Latest"),
   ("gemini-1.5-flash-8b", "Gemini 1.5 Flash-8B"),
   ("gemini-1.5-flash-8b-latest", "Gemini 1.5 Flash-8B Latest"),
   ("gemini-1.0-pro-vision", "Gemini 1.0 Pro Vision"),
   ("gemini-1.0-pro-vision-latest", "Gemini 1.0 Pro Vision Latest"),
   ("gemini-1.0-pro", "Gemini 1.0 Pro"),
   ("gemini-1.0-pro-latest", "Gemini 1.0 Pro Latest"),
   ("gemini-pro-vision", "Gemini Pro Vision"),
   ("gemini-pro", "Gemini Pro")]

/-- Case-sensitive occurrence of `pat` at the head of a character list. -/
def csStartsWith : List Char → List Char → Bool
  | [], _ => true
  | _ :: _, [] => false
  | p :: ps, c :: cs => (p == c) && csStartsWith ps cs

/-- Remove the first occurrence of `pat` from the list, leaving the list
unchanged when `pat` does not occur — `String.prototype.replace` with an
empty replacement. -/
def removeFirst (pat : List Char) : List Char → List Char
  | [] => []
  | c :: cs => if csStartsWith pat (c :: cs) then (c :: cs).drop pat.length
               else c :: removeFirst pat cs

/-- `item.name.replace('models/', '')` from the Setting component. -/
def replaceModelsPath (s : String) : String :=
  String.mk (removeFirst "models/".toList s.toList)

/-- The dynamic-model merge step of `modelOptions` (Setting component
lines 75-83): when the model store holds fetched records, add each record
whose stripped name is not among the table's display names (the source
compares against `values(Model)` captured before the loop) to the table under
the stripped name; otherwise leave the table untouched. -/
def extendModelTable (modelTable : List (String × String))
    (storeModels : List ModelRecord) : List (String × String) :=
  if storeModels.length > 0 then
    let models := modelTable.map Prod.snd
    storeModels.foldl
      (fun tbl item =>
        let modelName := replaceModelsPath item.name
        if models.contains modelName then tbl
        else addOrUpdate modelName item.displayName tbl)
      modelTable
  else modelTable

/-- One step of the `userModels.forEach` loop of `modelOptions` (Setting
component lines 90-107), folding over `(modelList, defaultModel, pending
setting-store model updates)`. -/
def userModelStep (defaultModelList : List String)
    (acc : List String × String × List String) (modelName : String) :
    List String × String × List String :=
  let (modelList, defaultModel, updates) := acc
  if modelName = "all" ∨ modelName = "+all" then
    (defaultModelList.foldl (fun ml n => if ml.contains n then ml else ml ++ [n]) modelList,
     defaultModel, updates)
  else if modelName = "-all" then
    (modelList.filter (fun name => !(defaultModelList.contains name)), defaultModel, updates)
  else if modelName.startsWith "-" then
    (modelList.filter (fun name => name != modelName.drop 1), defaultModel, updates)
  else if modelName.startsWith "@" then
    let name := modelName.drop 1
    ((if modelList.contains name then modelList else modelList ++ [name]), name,
     updates ++ [name])
  else
    (modelList ++ [if modelName.startsWith "+" then modelName.drop 1 else modelName],
     defaultModel, updates)

/-- The `modelOptions` computation of the Setting component (lines 72-115):
merge fetched models into the table, process the env-configured user model
list, and fall back to the table's keys when the processed list is empty.
Returns the option list, the (possibly extended) model table, and the model
names written to the setting store by `update({ model: ... })` calls. -/
def modelOptionsCompute (modelTable : List (String × String))
    (storeModels : List ModelRecord) (userModels : List String) :
    List String × List (String × String) × List String :=
  let table := extendModelTable modelTable storeModels
  let defaultModelList := table.map Prod.fst
  let (modelList, defaultModel, updates) :=
    userModels.foldl (userModelStep defaultModelList) ([], "gemini-1.5-flash-latest", [])
  let models := if modelList.length > 0 then modelList else defaultModelList
  let updates1 := if models.contains defaultModel then updates
                  else updates ++ [models.getD 0 ""]
  (models, table, updates1)

/-- The `fetchModels` completion callback of the Setting component (lines
163-174): the model store is updated with the fetched records only when the
fetched sequence is non-empty.  The store `update` itself is not in the given
sources; modelled from the spec as replacing the stored record list. -/
def applyFetchedModels (models : List ModelRecord) (store : List ModelRecord) :
    List ModelRecord :=
  if models.length > 0 then models else store

/-- Raw input to the settings-form validation schema, one field per schema
entry; `none` marks an absent (undefined) field.  Numeric form values are
modelled as rationals: only order comparisons against constant bounds occur,
on which rationals agree with JS numbers. -/
structure SettingsForm where
  password : Option String
  assistantIndexUrl : String
  lang : Option String
  apiKey : Option String
  apiProxy : Option String
  uploadProxy : Option String
  model : String
  maxHistoryLength : Option ℚ
  topP : Option ℚ
  topK : Option ℚ
  temperature : Option ℚ
  maxOutputTokens : Option ℚ
  safety : Option String
  sttLang : Option String
  ttsLang : Option String
  ttsVoice : Option String
  autoStopRecord : Option Bool

/-- A settings object accepted by the schema (defaults filled in). -/
structure ParsedSettings where
  password : Option String
  assistantIndexUrl : String
  lang : Option String
  apiKey : Option String
  apiProxy : Option String
  uploadProxy : Option String
  model : String
  maxHistoryLength : ℚ
  topP : ℚ
  topK : ℚ
  temperature : ℚ
  maxOutputTokens : ℚ
  safety : String
  sttLang : Option String
  ttsLang : Option String
  ttsVoice : Option String
  autoStopRecord : Bool

/-- A zod field of shape `z.number().gte(lo).lte(hi).default(dflt)` (with or
without `.optional()`): an absent value yields the default, a present value
is accepted iff it lies within the bounds. -/
def boundedOrDefault (lo hi dflt : ℚ) : Option ℚ → Option ℚ
  | none => some dflt
  | some v => if lo ≤ v ∧ v ≤ hi then some v else none

/-- The field `safety: z.enum(['none','low','middle','high']).default('none')`. -/
def parseSafety : Option String → Option String
  | none => some "none"
  | some s => if s ∈ (["none", "low", "middle", "high"] : List String) then some s else none

/-- Validation of an optional `z.string().url()` field; the URL validity test
is abstracted as a parameter. -/
def checkOptUrl (urlValid : String → Bool) : Option String → Bool
  | none => true
  | some s => urlValid s

/-- The settings `formSchema` of the Setting component (lines 38-56) as a
validation function: `some` of the parsed settings on acceptance, `none` on
rejection. -/
def formSchemaParse (urlValid : String → Bool) (f : SettingsForm) :
    Option ParsedSettings :=
  if urlValid f.assistantIndexUrl && checkOptUrl urlValid f.apiProxy
      && checkOptUrl urlValid f.uploadProxy then
    match boundedOrDefault 0 50 0 f.maxHistoryLength,
          boundedOrDefault 0 1 (95 / 100) f.topP,
          boundedOrDefault 0 128 40 f.topK,
          boundedOrDefault 0 1 1 f.temperature,
          boundedOrDefault 0 8192 8192 f.maxOutputTokens,
          parseSafety f.safety with
    | some mh, some tp, some tk, some tmp, some mot, some saf =>
        some { password := f.password, assistantIndexUrl := f.assistantIndexUrl,
               lang := f.lang, apiKey := f.apiKey, apiProxy := f.apiProxy,
               uploadProxy := f.uploadProxy, model := f.model,
               maxHistoryLength := mh, topP := tp, topK := tk, temperature := tmp,
               maxOutputTokens := mot, safety := saf, sttLang := f.sttLang,
               ttsLang := f.ttsLang, ttsVoice := f.ttsVoice,
               autoStopRecord := f.autoStopRecord.getD false }
    | _, _, _, _, _, _ => none
  else none

/-- The submit path of the Setting component: `form.handleSubmit(handleSubmit)`
invokes `handleSubmit` (lines 155-161) only on schema-validated values, which
are then written to the setting store (`settingStore.update`, modelled from
the spec as replacing the stored settings); a rejected input leaves the store
unchanged. -/
def submitSettings (urlValid : String → Bool) (f : SettingsForm)
    (store : ParsedSettings) : ParsedSettings :=
  match formSchemaParse urlValid f with
  | some v => v
  | none => store

/-- A reachable state with a stale list entry for the current conversation:
from the initial state, create a conversation (generated id `"abcdefghijkl"`,
twelve alphabet characters) and then edit the live title to `"foo"` via the
`editTitle` handler, which writes only the live Message Store. -/
def staleSelfState : GlobalState :=
  editTitle "foo" (newConversation "abcdefghijkl" initState)

/-- Interleaved run of `handleSummaryTitle "aaaaaaaaaaaa"` started while that
conversation is current: capture, one chunk write, a user switch to
`"default"`, the final chunk write, then the completion step. -/
def summarySwitchAwayRun : Option GlobalState :=
  let a := "aaaaaaaaaaaa"
  let st0 := newConversation a initState
  (summaryCapture a st0).bind fun cap =>
    let st1 := summaryChunk a cap "New" st0
    (handleSelect "default" st1).map fun st2 =>
      summaryComplete a cap "New Title" (summaryChunk a cap "New Title" st2)

/-- Interleaved run of `handleSummaryTitle "bbbbbbbbbbbb"` started while
`"default"` is current: capture, one chunk write, a user switch to
`"bbbbbbbbbbbb"` itself, the final chunk write, then the completion step. -/
def summarySwitchToRun : Option GlobalState :=
  let b := "bbbbbbbbbbbb"
  (handleSelect "default" (newConversation b initState)).bind fun st0 =>
    (summaryCapture b st0).bind fun cap =>
      let st1 := summaryChunk b cap "Nice" st0
      (handleSelect b st1).map fun st2 =>
        summaryComplete b cap "Nice Title" (summaryChunk b cap "Nice Title" st2)

/-- A concrete schema input used to witness the bounds theorem. -/
def witnessForm : SettingsForm :=
  { password := none
    assistantIndexUrl := "https://example.com"
    lang := none
    apiKey := none
    apiProxy := none
    uploadProxy := none
    model := "gemini-1.5-flash-latest"
    maxHistoryLength := none
    topP := some 1
    topK := some 0
    temperature := some 0
    maxOutputTokens := some 8192
    safety := none
    sttLang := none
    ttsLang := none
    ttsVoice := none
    autoStopRecord := none }

/-- The parse of `witnessForm`. -/
def witnessParsed : ParsedSettings :=
  { password := none
    assistantIndexUrl := "https://example.com"
    lang := none
    apiKey := none
    apiProxy := none
    uploadProxy := none
    model := "gemini-1.5-flash-latest"
    maxHistoryLength := 0
    topP := 1
    topK := 0
    temperature := 0
    maxOutputTokens := 8192
    safety := "none"
    sttLang := none
    ttsLang := none
    ttsVoice := none
    autoStopRecord := false }

/-! ## Helper lemmas -/

theorem query_addOrUpdate_self {α : Type} (id : String) (c : α) (l : List (String × α)) :
    query id (addOrUpdate id c l) = some c := by
  induction l with
  | nil => simp [addOrUpdate, query]
  | cons kv rest ih =>
      obtain ⟨k, v⟩ := kv
      by_cases h : k = id <;> simp [addOrUpdate, query, h, ih]

theorem query_addOrUpdate_ne {α : Type} (id k : String) (c : α) (l : List (String × α))
    (h : id ≠ k) : query id (addOrUpdate k c l) = query id l := by
  have hk : ¬(k = id) := fun hh => h hh.symm
  induction l with
  | nil => simp [addOrUpdate, query, hk]
  | cons kv rest ih =>
      obtain ⟨k1, v⟩ := kv
      by_cases h1 : k1 = k
      · subst h1
        simp [addOrUpdate, query, hk]
      · by_cases h2 : k1 = id <;> simp [addOrUpdate, query, h1, h2, h, ih]

theorem restore_backup (m : MsgStore) : restore (backup m) = m := rfl

/-- Unfolding equation for `handleSelect` when the post-backup query succeeds. -/
theorem handleSelect_eq_some (id : String) (st : GlobalState) (c : Conversation)
    (h : query id (addOrUpdate st.conv.currentId (backup st.msg) st.conv.conversationList)
      = some c) :
    handleSelect id st =
      some { conv := { st.conv with
               conversationList :=
                 addOrUpdate st.conv.currentId (backup st.msg) st.conv.conversationList,
               currentId := id },
             msg := restore c } := by
  simp only [handleSelect]
  rw [h]

/-! ## Claim C1 -/

/-- C1 (amended): for every state and every `targetId` present in the
Conversation List, `handleSelect targetId` writes the prior live fields into
the list under the old `currentId`, sets `currentId` to `targetId`, and
restores into the Message Store the prior list entry at `targetId` whenever
`targetId` differs from the old `currentId`; when `targetId` equals the old
`currentId`, the live fields are left unchanged (the freshly written snapshot
is restored, not the prior list entry). -/
theorem handleSelect_amended (st : GlobalState) (id : String) (c : Conversation)
    (hq : query id st.conv.conversationList = some c) :
    ∃ st1, handleSelect id st = some st1 ∧
      query st.conv.currentId st1.conv.conversationList = some (backup st.msg) ∧
      st1.conv.currentId = id ∧
      (id ≠ st.conv.currentId → st1.msg = restore c) ∧
      (id = st.conv.currentId → st1.msg = st.msg) := by
  by_cases hid : id = st.conv.currentId
  · have hq1 : query id (addOrUpdate st.conv.currentId (backup st.msg) st.conv.conversationList)
        = some (backup st.msg) := by
      rw [hid]; exact query_addOrUpdate_self _ _ _
    refine ⟨_, handleSelect_eq_some id st (backup st.msg) hq1, ?_, rfl, ?_, ?_⟩
    · show query st.conv.currentId
        (addOrUpdate st.conv.currentId (backup st.msg) st.conv.conversationList)
        = some (backup st.msg)
      exact query_addOrUpdate_self _ _ _
    · intro hne; exact absurd hid hne
    · intro _; rfl
  · have hq1 : query id (addOrUpdate st.conv.currentId (backup st.msg) st.conv.conversationList)
        = some c := by
      rw [query_addOrUpdate_ne id st.conv.currentId _ _ hid]; exact hq
    refine ⟨_, handleSelect_eq_some id st c hq1, ?_, rfl, ?_, ?_⟩
    · show query st.conv.currentId
        (addOrUpdate st.conv.currentId (backup st.msg) st.conv.conversationList)
        = some (backup st.msg)
      exact query_addOrUpdate_self _ _ _
    · intro _; rfl
    · intro heq; exact absurd heq hid


/-- Witness for `handleSelect_amended` at the initial state selecting
`"default"`, the hypothesis discharged by evaluation. -/
theorem handleSelect_amended_witness :
    query "default" initState.conv.conversationList = some emptyConversation ∧
    (∃ st1, handleSelect "default" initState = some st1 ∧
      query initState.conv.currentId st1.conv.conversationList = some (backup initState.msg) ∧
      st1.conv.currentId = "default" ∧
      ("default" ≠ initState.conv.currentId → st1.msg = restore emptyConversation) ∧
      ("default" = initState.conv.currentId → st1.msg = initState.msg)) :=
  ⟨rfl, handleSelect_amended initState "default" emptyConversation rfl⟩

/-- C1 as stated fails when the selected target is the already-current
conversation with a stale list entry: in the reachable state `staleSelfState`
(create `"abcdefghijkl"`, then edit the live title to `"foo"`), the target id
is present in the list with stored title `""`, yet after `handleSelect` the
live title is `"foo"`, not the prior list entry's title. -/
theorem handleSelect_claim_counterexample :
    (query "abcdefghijkl" staleSelfState.conv.conversationList).map Conversation.title
      = some "" ∧
    (handleSelect "abcdefghijkl" staleSelfState).map (fun st1 => st1.msg.title)
      = some "foo" ∧
    ("" : String) ≠ "foo" :=
  ⟨rfl, rfl, by decide⟩

/-! ## Claims C2 and C4 -/

/-- C2 fails on the code: starting a title summarization for
`"aaaaaaaaaaaa"` while it is current and then switching to `"default"`
mid-stream ends with the completion step writing the accumulated title into
the live Message Store — which then holds the newly active `"default"`
conversation — because line 122 compares the captured id against the
`currentId` captured at call time, not the current one.  The final state has
`currentId = "default"`, live title `"New Title"` (written by the
summarization), while the stored `"default"` entry's title is `""`. -/
theorem summary_switch_away_overwrites_live_title :
    summarySwitchAwayRun.map
      (fun st => (st.conv.currentId, st.msg.title,
        (query "default" st.conv.conversationList).map Conversation.title))
      = some ("default", "New Title", some "") := rfl

/-- C4 fails on the code in the other direction: starting a summarization for
`"bbbbbbbbbbbb"` while `"default"` is current and switching to
`"bbbbbbbbbbbb"` mid-stream ends with the completion step skipped (the
captured `currentId` is `"default"`), so although `"bbbbbbbbbbbb"` is the
active conversation at the moment of completion, its live title stays at the
mid-stream value `"Nice"` while its stored title is the final content
`"Nice Title"` — the live and stored copies diverge. -/
theorem summary_switch_to_skips_live_title :
    summarySwitchToRun.map
      (fun st => (st.conv.currentId, st.msg.title,
        (query "bbbbbbbbbbbb" st.conv.conversationList).map Conversation.title))
      = some ("bbbbbbbbbbbb", "Nice", some "Nice Title") := rfl

/-! ## Claim C3 -/

/-- C3 fails on the code: because the regex carries the `g` flag, `test` is
stateful across entries (`lastIndex`).  For keyword `"a"` over a map whose
first entry is titled `"za"` and second `"ab"`, the match in `"za"` leaves
`lastIndex = 2`, so the test on `"ab"` starts past its end and fails; the
second entry is dropped although its title matches the keyword
case-insensitively (shown by `specMatches`, the spec's fresh-test notion). -/
theorem search_gflag_misses_matching_entry :
    (search "a"
      [("c1", { title := "za", messages := [], summary := { ids := [], content := "" },
                systemInstruction := "", chatLayout := "doc" }),
       ("c2", { title := "ab", messages := [], summary := { ids := [], content := "" },
                systemInstruction := "", chatLayout := "doc" })]).map Prod.fst = ["c1"] ∧
    specMatches (trimChars "a".toList) "ab" = true ∧
    specMatches (trimChars "a".toList) "za" = true :=
  ⟨rfl, rfl, rfl⟩

/-! ## Claim C5 -/

theorem searchLoop_sublist (r : JsRegex) (l : List (String × Conversation)) :
    List.Sublist (searchLoop r l) l := by
  induction l generalizing r with
  | nil => simp [searchLoop]
  | cons kv rest ih =>
      obtain ⟨id, item⟩ := kv
      simp only [searchLoop]
      by_cases h : (scanMessages
          (if (regexTest r item.title).1 then regexTest r item.title
           else regexTest (regexTest r item.title).2 item.systemInstruction).2
          (if (regexTest r item.title).1 then regexTest r item.title
           else regexTest (regexTest r item.title).2 item.systemInstruction).1
          item.messages).1 = true
      · rw [if_pos h]
        exact List.Sublist.cons₂ _ (ih _)
      · rw [if_neg h]
        exact List.Sublist.cons _ (ih _)

/-- C5: `handleSearch` leaves the stores untouched, stores the freshly built
`search` result in the component's search state, and that result is a
sublist of the Conversation List — a filtered view whose entries are the
input's own (id, conversation) pairs, unchanged. -/
theorem search_is_pure (keyword : String) (st : GlobalState)
    (conversations : Option (List (String × Conversation))) :
    (handleSearch keyword st conversations).1 = st ∧
    (handleSearch keyword st conversations).2 = some (search keyword st.conv.conversationList) ∧
    List.Sublist (search keyword st.conv.conversationList) st.conv.conversationList :=
  ⟨rfl, rfl, searchLoop_sublist _ _⟩

/-! ## Claim C6 -/

theorem nanoidFrom_chars (rand : Nat → Nat) :
    ((nanoidFrom rand).toList.all fun c => decide (c ∈ nanoidAlphabet)) = true := by
  rw [List.all_eq_true]
  intro c hc
  rw [decide_eq_true_eq]
  have hc2 : c ∈ (List.range 12).map
      (fun i => nanoidAlphabet.getD (rand i % nanoidAlphabet.length) 'x') := hc
  obtain ⟨i, hi, rfl⟩ := List.mem_map.mp hc2
  have hlt : rand i % nanoidAlphabet.length < nanoidAlphabet.length :=
    Nat.mod_lt _ (by decide)
  rw [List.getD_eq_getElem _ _ hlt]
  exact List.getElem_mem _

/-- C6: `newConversation` with a generated id `nanoidFrom rand` produces a
twelve-character id over the alphanumeric alphabet, and its final state is
exactly the sequential composition the claim describes: the live snapshot
written under the old `currentId`, then the empty conversation (title `""`,
no messages, empty summary, empty system instruction, layout `"doc"`)
inserted under the new id with no uniqueness check (the equation holds for
every generated id, colliding or not), the new id current, and the empty
conversation loaded into the Message Store. -/
theorem newConversation_spec (st : GlobalState) (rand : Nat → Nat) :
    (nanoidFrom rand).length = 12 ∧
    ((nanoidFrom rand).toList.all fun c => decide (c ∈ nanoidAlphabet)) = true ∧
    (newConversation (nanoidFrom rand) st).conv.conversationList =
      addOrUpdate (nanoidFrom rand) emptyConversation
        (addOrUpdate st.conv.currentId (backup st.msg) st.conv.conversationList) ∧
    (newConversation (nanoidFrom rand) st).conv.currentId = nanoidFrom rand ∧
    query (nanoidFrom rand) (newConversation (nanoidFrom rand) st).conv.conversationList =
      some { title := "", messages := [], summary := { ids := [], content := "" },
             systemInstruction := "", chatLayout := "doc" } ∧
    (newConversation (nanoidFrom rand) st).msg = restore emptyConversation ∧
    (newConversation (nanoidFrom rand) st).conv.pinned = st.conv.pinned := by
  refine ⟨?_, nanoidFrom_chars rand, rfl, rfl, ?_, rfl, rfl⟩
  · simp [nanoidFrom, String.length]
  · exact query_addOrUpdate_self _ _ _

/-! ## Claim C7 -/

/-- C7: a conversation item's displayed title is the stored title when that
is non-empty, and the localized default label `t('chatAnything')` when the
stored title is the empty string. -/
theorem conversationTitle_spec (t : String → String) (title : String) :
    (title = "" → conversationTitle t title = t "chatAnything") ∧
    (title ≠ "" → conversationTitle t title = title) := by
  constructor <;> intro h <;> simp [conversationTitle, h]

/-- Witness for `conversationTitle_spec` at both a non-empty and an empty
stored title. -/
theorem conversationTitle_spec_witness :
    conversationTitle (fun _ => "New Chat") "" = "New Chat" ∧
    conversationTitle (fun _ => "New Chat") "hi" = "hi" :=
  ⟨(conversationTitle_spec (fun _ => "New Chat") "").1 rfl,
   (conversationTitle_spec (fun _ => "New Chat") "hi").2 (by decide)⟩

/-! ## Claim C8 -/

/-- C8: when the model-list service returns the empty sequence, the model
store keeps its previous records; with the store holding no fetched records
the model table is not extended, and (in the default deployment, with no
env-configured user model list) the option list is exactly the keys of the
built-in `Model` table. -/
theorem modelOptions_empty_fallback (store : List ModelRecord) :
    applyFetchedModels [] store = store ∧
    extendModelTable Model [] = Model ∧
    (modelOptionsCompute Model [] []).1 = Model.map Prod.fst :=
  ⟨rfl, rfl, rfl⟩

/-! ## Claim C9 -/

theorem buildLists_eq_filter (s : List (String × Conversation)) (pinned : List String) :
    buildLists s pinned =
      (s.filter fun p => !(p.1 == "default") && !(decide (p.1 ∈ pinned)),
       s.filter fun p => !(p.1 == "default") && decide (p.1 ∈ pinned)) := by
  induction s with
  | nil => rfl
  | cons kv rest ih =>
      obtain ⟨id, c⟩ := kv
      simp only [buildLists, ih, List.filter]
      by_cases h1 : id = "default"
      · simp [h1]
      · have hb : (id == "default") = false := beq_eq_false_iff_ne.mpr h1
        by_cases h2 : id ∈ pinned <;> simp [h1, h2, hb, List.filter_cons]

/-- C9: the rendered sidebar lists partition the source entries: an id other
than `"default"` occurs in the two derived lists exactly once in total when
present in the (duplicate-free) source and zero times otherwise; it lands in
the pinned list iff it is a member of the pinned set and in the ordinary
list iff it is not; and `"default"` appears in neither list. -/
theorem buildLists_partition (s : List (String × Conversation)) (pinned : List String)
    (hnd : (s.map Prod.fst).Nodup) (id : String) (hid : id ≠ "default") :
    ((buildLists s pinned).1.map Prod.fst).count id
        + ((buildLists s pinned).2.map Prod.fst).count id
      = (if id ∈ s.map Prod.fst then 1 else 0) ∧
    (id ∈ (buildLists s pinned).2.map Prod.fst ↔ id ∈ s.map Prod.fst ∧ id ∈ pinned) ∧
    (id ∈ (buildLists s pinned).1.map Prod.fst ↔ id ∈ s.map Prod.fst ∧ id ∉ pinned) ∧
    "default" ∉ (buildLists s pinned).1.map Prod.fst ∧
    "default" ∉ (buildLists s pinned).2.map Prod.fst := by
  rw [buildLists_eq_filter]
  have hmem1 : ∀ a : String, a ∈ (s.filter fun p =>
      !(p.1 == "default") && !(decide (p.1 ∈ pinned))).map Prod.fst
      ↔ a ∈ s.map Prod.fst ∧ a ≠ "default" ∧ a ∉ pinned := by
    intro a
    simp only [List.mem_map, List.mem_filter, Bool.and_eq_true, Bool.not_eq_true',
      beq_eq_false_iff_ne, decide_eq_false_iff_not]
    constructor
    · rintro ⟨p, ⟨hp, hne, hnp⟩, rfl⟩
      exact ⟨⟨p, hp, rfl⟩, hne, hnp⟩
    · rintro ⟨⟨p, hp, rfl⟩, hne, hnp⟩
      exact ⟨p, ⟨hp, hne, hnp⟩, rfl⟩
  have hmem2 : ∀ a : String, a ∈ (s.filter fun p =>
      !(p.1 == "default") && decide (p.1 ∈ pinned)).map Prod.fst
      ↔ a ∈ s.map Prod.fst ∧ a ≠ "default" ∧ a ∈ pinned := by
    intro a
    simp only [List.mem_map, List.mem_filter, Bool.and_eq_true, Bool.not_eq_true',
      beq_eq_false_iff_ne, decide_eq_true_eq]
    constructor
    · rintro ⟨p, ⟨hp, hne, hnp⟩, rfl⟩
      exact ⟨⟨p, hp, rfl⟩, hne, hnp⟩
    · rintro ⟨⟨p, hp, rfl⟩, hne, hnp⟩
      exact ⟨p, ⟨hp, hne, hnp⟩, rfl⟩
  have hnd1 : ((s.filter fun p =>
      !(p.1 == "default") && !(decide (p.1 ∈ pinned))).map Prod.fst).Nodup :=
    hnd.sublist ((List.filter_sublist s).map Prod.fst)
  have hnd2 : ((s.filter fun p =>
      !(p.1 == "default") && decide (p.1 ∈ pinned)).map Prod.fst).Nodup :=
    hnd.sublist ((List.filter_sublist s).map Prod.fst)
  refine ⟨?_, ?_, ?_, ?_, ?_⟩
  · by_cases hs : id ∈ s.map Prod.fst
    · rw [if_pos hs]
      by_cases hp : id ∈ pinned
      · rw [List.count_eq_zero.mpr (fun hin => ((hmem1 id).mp hin).2.2 hp),
          List.count_eq_one_of_mem hnd2 ((hmem2 id).mpr ⟨hs, hid, hp⟩)]
      · rw [List.count_eq_one_of_mem hnd1 ((hmem1 id).mpr ⟨hs, hid, hp⟩),
          List.count_eq_zero.mpr (fun hin => hp ((hmem2 id).mp hin).2.2)]
    · rw [if_neg hs, List.count_eq_zero.mpr (fun hin => hs ((hmem1 id).mp hin).1),
        List.count_eq_zero.mpr (fun hin => hs ((hmem2 id).mp hin).1)]
  · rw [hmem2 id]
    exact ⟨fun h => ⟨h.1, h.2.2⟩, fun h => ⟨h.1, hid, h.2⟩⟩
  · rw [hmem1 id]
    exact ⟨fun h => ⟨h.1, h.2.2⟩, fun h => ⟨h.1, hid, h.2⟩⟩
  · exact fun hin => ((hmem1 "default").mp hin).2.1 rfl
  · exact fun hin => ((hmem2 "default").mp hin).2.1 rfl

/-- Witness for `buildLists_partition` on a two-entry map with one pinned
id, the hypotheses discharged by evaluation. -/
theorem buildLists_partition_witness :
    (([("p1", emptyConversation), ("q2", emptyConversation)].map
        (Prod.fst (β := Conversation))).Nodup ∧ ("p1" : String) ≠ "default") ∧
    (((buildLists [("p1", emptyConversation), ("q2", emptyConversation)] ["p1"]).1.map
          Prod.fst).count "p1"
        + ((buildLists [("p1", emptyConversation), ("q2", emptyConversation)] ["p1"]).2.map
          Prod.fst).count "p1"
      = (if "p1" ∈ [("p1", emptyConversation), ("q2", emptyConversation)].map Prod.fst
         then 1 else 0) ∧
    ("p1" ∈ (buildLists [("p1", emptyConversation), ("q2", emptyConversation)] ["p1"]).2.map
        Prod.fst
      ↔ "p1" ∈ [("p1", emptyConversation), ("q2", emptyConversation)].map Prod.fst
          ∧ "p1" ∈ ["p1"]) ∧
    ("p1" ∈ (buildLists [("p1", emptyConversation), ("q2", emptyConversation)] ["p1"]).1.map
        Prod.fst
      ↔ "p1" ∈ [("p1", emptyConversation), ("q2", emptyConversation)].map Prod.fst
          ∧ "p1" ∉ ["p1"]) ∧
    "default" ∉ (buildLists [("p1", emptyConversation), ("q2", emptyConversation)] ["p1"]).1.map
        Prod.fst ∧
    "default" ∉ (buildLists [("p1", emptyConversation), ("q2", emptyConversation)] ["p1"]).2.map
        Prod.fst) :=
  ⟨⟨by decide, by decide⟩,
   buildLists_partition [("p1", emptyConversation), ("q2", emptyConversation)] ["p1"]
     (by decide) "p1" (by decide)⟩

/-! ## Claim C10 -/

theorem boundedOrDefault_bounds (lo hi dflt : ℚ) (hlo : lo ≤ dflt) (hhi : dflt ≤ hi)
    (x : Option ℚ) (v : ℚ) (h : boundedOrDefault lo hi dflt x = some v) :
    lo ≤ v ∧ v ≤ hi := by
  cases x with
  | none =>
      simp only [boundedOrDefault, Option.some.injEq] at h
      subst h
      exact ⟨hlo, hhi⟩
  | some w =>
      simp only [boundedOrDefault] at h
      split_ifs at h with hb
      · cases h
        exact hb

theorem parseSafety_mem (x : Option String) (s : String) (h : parseSafety x = some s) :
    s ∈ (["none", "low", "middle", "high"] : List String) := by
  cases x with
  | none =>
      simp only [parseSafety, Option.some.injEq] at h
      subst h
      simp
  | some w =>
      simp only [parseSafety] at h
      split_ifs at h with hb
      · cases h
        exact hb

/-- C10: every settings object the form schema accepts satisfies the numeric
bounds (`maxHistoryLength ∈ [0,50]`, `topP ∈ [0,1]`, `topK ∈ [0,128]`,
`temperature ∈ [0,1]`, `maxOutputTokens ∈ [0,8192]`) and has a `safety`
drawn from the four-value enumeration; and a rejected input reaches the
store-update path as a no-op — the setting store is unchanged. -/
theorem formSchema_bounds (urlValid : String → Bool) (f : SettingsForm) :
    (∀ out, formSchemaParse urlValid f = some out →
      0 ≤ out.maxHistoryLength ∧ out.maxHistoryLength ≤ 50 ∧
      0 ≤ out.topP ∧ out.topP ≤ 1 ∧
      0 ≤ out.topK ∧ out.topK ≤ 128 ∧
      0 ≤ out.temperature ∧ out.temperature ≤ 1 ∧
      0 ≤ out.maxOutputTokens ∧ out.maxOutputTokens ≤ 8192 ∧
      out.safety ∈ (["none", "low", "middle", "high"] : List String)) ∧
    (formSchemaParse urlValid f = none →
      ∀ store, submitSettings urlValid f store = store) := by
  constructor
  · intro out h
    unfold formSchemaParse at h
    split_ifs at h with hu
    · rcases h1 : boundedOrDefault 0 50 0 f.maxHistoryLength with _ | mh
      · rw [h1] at h; simp at h
      rw [h1] at h
      rcases h2 : boundedOrDefault 0 1 (95 / 100) f.topP with _ | tp
      · rw [h2] at h; simp at h
      rw [h2] at h
      rcases h3 : boundedOrDefault 0 128 40 f.topK with _ | tk
      · rw [h3] at h; simp at h
      rw [h3] at h
      rcases h4 : boundedOrDefault 0 1 1 f.temperature with _ | tmp
      · rw [h4] at h; simp at h
      rw [h4] at h
      rcases h5 : boundedOrDefault 0 8192 8192 f.maxOutputTokens with _ | mot
      · rw [h5] at h; simp at h
      rw [h5] at h
      rcases h6 : parseSafety f.safety with _ | saf
      · rw [h6] at h; simp at h
      rw [h6] at h
      simp only [Option.some.injEq] at h
      subst h
      obtain ⟨b1, b1h⟩ := boundedOrDefault_bounds 0 50 0 (by norm_num) (by norm_num) _ _ h1
      obtain ⟨b2, b2h⟩ := boundedOrDefault_bounds 0 1 (95 / 100) (by norm_num) (by norm_num) _ _ h2
      obtain ⟨b3, b3h⟩ := boundedOrDefault_bounds 0 128 40 (by norm_num) (by norm_num) _ _ h3
      obtain ⟨b4, b4h⟩ := boundedOrDefault_bounds 0 1 1 (by norm_num) (by norm_num) _ _ h4
      obtain ⟨b5, b5h⟩ := boundedOrDefault_bounds 0 8192 8192 (by norm_num) (by norm_num) _ _ h5
      exact ⟨b1, b1h, b2, b2h, b3, b3h, b4, b4h, b5, b5h, parseSafety_mem _ _ h6⟩
  · intro h store
    unfold submitSettings
    rw [h]

/-- Witness for `formSchema_bounds` at a concrete accepted input, the
acceptance hypothesis discharged by evaluation. -/
theorem formSchema_bounds_witness :
    formSchemaParse (fun _ => true) witnessForm = some witnessParsed ∧
    (0 ≤ witnessParsed.maxHistoryLength ∧ witnessParsed.maxHistoryLength ≤ 50 ∧
      0 ≤ witnessParsed.topP ∧ witnessParsed.topP ≤ 1 ∧
      0 ≤ witnessParsed.topK ∧ witnessParsed.topK ≤ 128 ∧
      0 ≤ witnessParsed.temperature ∧ witnessParsed.temperature ≤ 1 ∧
      0 ≤ witnessParsed.maxOutputTokens ∧ witnessParsed.maxOutputTokens ≤ 8192 ∧
      witnessParsed.safety ∈ (["none", "low", "middle", "high"] : List String)) :=
  ⟨rfl, (formSchema_bounds (fun _ => true) witnessForm).1 witnessParsed rfl⟩

end NextChat
